import Mathlib

/-!
Shallow embedding of `src/main.js`: a generator of random employee records
(gender, unique birthdate string, name, surname, workload) followed by an
aggregator that counts names in five buckets and emits sorted views.

Modelling conventions:
* A JavaScript `Date` is its time value, an `Int` of milliseconds since the
  epoch.  The host timezone is a fixed offset `tz` (milliseconds east of UTC);
  the local-time accessors `getFullYear`, `getHours`, … read components of
  `t + tz`, and `tz = 0` gives the UTC accessors.
* `Math.random()` is an injected stream `rnd : Nat → ℚ` of draws, consumed in
  call order; `i` is the index of the next draw.
* The unbounded `do..while` resampling loop is given fuel: `none` means the
  loop was still running when the fuel ran out.
* A JavaScript object used as a string-keyed dictionary is an association
  list in property-insertion order (the name keys of this program are plain
  string properties, not array indices).
-/

namespace EmployeeApp

/-- One generated employee record, the object literal of `createEmployee`. -/
structure Employee where
  gender : String
  birthdate : String
  name : String
  surname : String
  workload : Nat
deriving Repr, DecidableEq

/-- The `age` part of the input configuration. -/
structure AgeRange where
  min : Nat
  max : Nat
deriving Repr, DecidableEq

/-- The input configuration `dtoIn` of `generateEmployeeData`. -/
structure DtoIn where
  count : Nat
  age : AgeRange
deriving Repr, DecidableEq

/-! ### Calendar arithmetic backing the ECMAScript Date accessors -/

/-- Proleptic-Gregorian decomposition: day number (days since 1970-01-01)
to (year, month 1..12, day 1..31), as ECMAScript `YearFromTime`,
`MonthFromTime`, `DateFromTime` compute it. -/
def civilFromDays (z : Int) : Int × Nat × Nat :=
  let zsh := z + 719468
  let era := zsh.ediv 146097
  let doe := (zsh - era * 146097).toNat
  let yoe := (doe - doe / 1460 + doe / 36524 - doe / 146096) / 365
  let doy := doe - (365 * yoe + yoe / 4 - yoe / 100)
  let mp := (5 * doy + 2) / 153
  let d := doy - (153 * mp + 2) / 5 + 1
  let m := if mp < 10 then mp + 3 else mp - 9
  (era * 400 + yoe + (if m ≤ 2 then 1 else 0), m, d)

/-- Inverse of `civilFromDays`: (year, month, day) to day number, as
ECMAScript `MakeDay`.  Linear in `d`, so an out-of-range day overflows into
the next months exactly as `Date` does. -/
def daysFromCivil (y : Int) (m d : Nat) : Int :=
  let ysh := y - (if m ≤ 2 then 1 else 0)
  let era := ysh.ediv 400
  let yoe := (ysh - era * 400).toNat
  let mp := if 2 < m then m - 3 else m + 9
  let doy := (153 * mp + 2) / 5 + d - 1
  let doe := yoe * 365 + yoe / 4 - yoe / 100 + doy
  era * 146097 + (doe : Int) - 719468

/-- Milliseconds into the local day of instant `t` in a zone `tz` ms east of
UTC. -/
def localMsOfDay (tz t : Int) : Nat := ((t + tz).emod 86400000).toNat

/-- Local day number of instant `t` in zone `tz`. -/
def localDays (tz t : Int) : Int := (t + tz).ediv 86400000

/-- Local calendar components (year, month, day) of instant `t` in zone
`tz`: the model of `date.getFullYear() / getMonth() + 1 / getDate()`. -/
def localCivil (tz t : Int) : Int × Nat × Nat := civilFromDays (localDays tz t)

/-- The model of `date.getFullYear()`. -/
def getFullYear (tz t : Int) : Int := (localCivil tz t).1

/-- The model of `date.setFullYear(y)`: keep the local month, day and
time-of-day of `t`, replace the local year by `y`, and return the new time
value. -/
def setFullYear (tz t y : Int) : Int :=
  let c := localCivil tz t
  daysFromCivil y c.2.1 c.2.2 * 86400000 + (localMsOfDay tz t : Int) - tz

/-- The `'0'.padStart` padding used by `formatDateToISO`. -/
def padZero (n : Nat) (s : String) : String :=
  String.mk (List.replicate (n - s.length) '0') ++ s

/-- The embedding of `formatDateToISO(date)`: builds
`YYYY-MM-DDTHH:mm:ss.sssZ` from the **local-time** accessors of the date
(`getFullYear`, `getMonth() + 1`, `getDate`, `getHours`, `getMinutes`,
`getSeconds`, `getMilliseconds`) and appends the literal `"Z"`. -/
def formatDateToISO (tz t : Int) : String :=
  let c := localCivil tz t
  let ms := localMsOfDay tz t
  toString c.1 ++ "-" ++ padZero 2 (Nat.repr c.2.1) ++ "-" ++
    padZero 2 (Nat.repr c.2.2) ++ "T" ++ padZero 2 (Nat.repr (ms / 3600000)) ++
    ":" ++ padZero 2 (Nat.repr (ms / 60000 % 60)) ++ ":" ++
    padZero 2 (Nat.repr (ms / 1000 % 60)) ++ "." ++
    padZero 3 (Nat.repr (ms % 1000)) ++ "Z"

/-! ### Generator -/

/-- The date window computed by `calculateDateRange(dtoIn)`. -/
structure DateRange where
  minTime : Int
  maxTime : Int
  range : Int
deriving Repr, DecidableEq

/-- The embedding of `calculateDateRange(dtoIn)`: copies of `now` with the
full year decreased by `age.max` resp. `age.min`, and their distance. -/
def calculateDateRange (tz now : Int) (dtoIn : DtoIn) : DateRange :=
  let minDate := setFullYear tz now (getFullYear tz now - dtoIn.age.max)
  let maxDate := setFullYear tz now (getFullYear tz now - dtoIn.age.min)
  { minTime := minDate, maxTime := maxDate, range := maxDate - minDate }

/-- ECMAScript `ToIntegerOrInfinity` on a finite rational: truncation toward
zero, as `new Date(x)` clips a fractional time value. -/
def jsTrunc (q : ℚ) : Int := Int.tdiv q.num q.den

/-- `Math.floor` of a rational draw already scaled for array indexing,
clamped into `Nat` (the scaled draw is nonnegative for draws in [0,1)). -/
def jsFloorIndex (q : ℚ) : Nat := (Rat.floor q).toNat

/-- The embedding of `generateUniqueBirthdate(dateRange, usedBirthdates)`:
sample an instant in the window, format it, and retry while the string was
already used.  `fuel` bounds the number of samples; `none` means the fuel ran
out with the loop still spinning.  Returns the fresh string, the grown used
set and the next draw index. -/
def generateUniqueBirthdate (tz : Int) (rnd : Nat → ℚ) (dateRange : DateRange) :
    Nat → Nat → List String → Option (String × List String × Nat)
  | 0, _, _ => none
  | fuel + 1, i, used =>
    let randomTime : ℚ := (dateRange.minTime : ℚ) + rnd i * (dateRange.range : ℚ)
    let birthdateStr := formatDateToISO tz (jsTrunc randomTime)
    if birthdateStr ∈ used then
      generateUniqueBirthdate tz rnd dateRange fuel (i + 1) used
    else
      some (birthdateStr, used ++ [birthdateStr], i + 1)

/-- The two gendered name corpora of `getNameLists()`. -/
structure NameLists where
  male : List String
  female : List String

/-- The fixed name corpora of `getNameLists()`. -/
def getNameLists : NameLists :=
  { male := ["Jan", "Petr", "Pavel", "Jiří", "Josef", "Tomáš", "Martin",
      "Jaroslav", "Miroslav", "František", "Václav", "Karel", "Milan",
      "David", "Michal", "Vratislav", "Zdeněk", "Lukáš", "Marek", "Jakub",
      "Ondřej", "Stanislav"],
    female := ["Jana", "Marie", "Eva", "Anna", "Hana", "Věra", "Alena",
      "Lenka", "Petra", "Jitka", "Martina", "Kateřina", "Lucie", "Monika",
      "Aneta", "Jiřina", "Ivana", "Veronika", "Tereza", "Barbora", "Zuzana",
      "Michaela"] }

/-- The fixed surname corpus of `getSurnameList()`. -/
def getSurnameList : List String :=
  ["Novák", "Svoboda", "Novotný", "Dvořák", "Černý", "Procházka", "Kučera",
   "Veselý", "Horák", "Němec", "Marek", "Pospíšil", "Pokorný", "Hájek",
   "Král", "Jelínek", "Růžička", "Beneš", "Fiala", "Sedláček", "Doležal",
   "Zeman", "Kolář", "Navrátil", "Čermák", "Sýkora", "Ptáček", "Urban",
   "Krejčí", "Vaněk"]

/-- The embedding of `createEmployee(names, surnames, dateRange,
usedBirthdates)`: four draws pick gender, workload, name and surname, then
the birthdate loop runs from draw index `i + 4`. -/
def createEmployee (tz : Int) (rnd : Nat → ℚ) (fuel i : Nat) (names : NameLists)
    (surnames : List String) (dateRange : DateRange) (used : List String) :
    Option (Employee × List String × Nat) :=
  let gender := if rnd i < (1 : ℚ) / 2 then "male" else "female"
  let workloads : List Nat := [10, 20, 30, 40]
  let workload := workloads.getD (jsFloorIndex (rnd (i + 1) * 4)) 0
  let nameList := if gender = "male" then names.male else names.female
  let name := nameList.getD (jsFloorIndex (rnd (i + 2) * nameList.length)) ""
  let surname := surnames.getD (jsFloorIndex (rnd (i + 3) * surnames.length)) ""
  match generateUniqueBirthdate tz rnd dateRange fuel (i + 4) used with
  | none => none
  | some (birthdate, used', i') =>
    some ({ gender := gender, birthdate := birthdate, name := name,
            surname := surname, workload := workload }, used', i')

/-- The `for` loop of `generateEmployeeData`: create `k` employees in order,
threading the used-birthdate set and the draw index. -/
def generateEmployees (tz : Int) (rnd : Nat → ℚ) (fuel : Nat)
    (names : NameLists) (surnames : List String) (dateRange : DateRange) :
    Nat → Nat → List String → Option (List Employee)
  | 0, _, _ => some []
  | k + 1, i, used =>
    match createEmployee tz rnd fuel i names surnames dateRange used with
    | none => none
    | some (e, used', i') =>
      match generateEmployees tz rnd fuel names surnames dateRange k i' used' with
      | none => none
      | some es => some (e :: es)

/-- The embedding of `generateEmployeeData(dtoIn)`. -/
def generateEmployeeData (tz now : Int) (rnd : Nat → ℚ) (fuel : Nat)
    (dtoIn : DtoIn) : Option (List Employee) :=
  let dateRange := calculateDateRange tz now dtoIn
  generateEmployees tz rnd fuel getNameLists getSurnameList dateRange
    dtoIn.count 0 []

/-! ### Aggregator -/

/-- A JavaScript object used as a name → count dictionary: an association
list in property-insertion order. -/
abbrev NameDict := List (String × Nat)

/-- The statement `d[n] = (d[n] || 0) + 1`: bump the entry of `n` in place,
or append a fresh `(n, 1)` entry at the end. -/
def incrName : NameDict → String → NameDict
  | [], n => [(n, 1)]
  | (k, v) :: rest, n =>
    if k = n then (k, v + 1) :: rest else (k, v) :: incrName rest n

/-- Property read `d[n] || 0`. -/
def getCount : NameDict → String → Nat
  | [], _ => 0
  | (k, v) :: rest, n => if k = n then v else getCount rest n

/-- The five counting buckets of `initializeNameCounts()`. -/
structure NameCounts where
  all : NameDict
  male : NameDict
  female : NameDict
  femalePartTime : NameDict
  maleFullTime : NameDict
deriving Repr, DecidableEq

/-- The embedding of `initializeNameCounts()`. -/
def initializeNameCounts : NameCounts :=
  { all := [], male := [], female := [], femalePartTime := [], maleFullTime := [] }

/-- The body of the `for..of` loop of `countNamesByCategory` for one
employee. -/
def countOne (nameCounts : NameCounts) (e : Employee) : NameCounts :=
  let nc := { nameCounts with all := incrName nameCounts.all e.name }
  if e.gender = "male" then
    let nc := { nc with male := incrName nc.male e.name }
    if e.workload = 40 then
      { nc with maleFullTime := incrName nc.maleFullTime e.name }
    else nc
  else
    let nc := { nc with female := incrName nc.female e.name }
    if e.workload ≠ 40 then
      { nc with femalePartTime := incrName nc.femalePartTime e.name }
    else nc

/-- The embedding of `countNamesByCategory(employees, nameCounts)`. -/
def countNamesByCategory (employees : List Employee)
    (nameCounts : NameCounts) : NameCounts :=
  employees.foldl countOne nameCounts

/-- Stable insertion modelling one placement of `Array.prototype.sort`
(stable per ECMAScript) under the comparator `(a, b) => b[1] - a[1]`: an
entry goes in front of the first entry whose count does not exceed its own. -/
def insertByCountDesc (x : String × Nat) : NameDict → NameDict
  | [] => [x]
  | y :: ys => if y.2 ≤ x.2 then x :: y :: ys else y :: insertByCountDesc x ys

/-- `Object.entries(d).sort((a, b) => b[1] - a[1])`: the stable sort of the
entry list by count descending. -/
def sortEntriesByCountDesc (d : NameDict) : NameDict :=
  d.foldr insertByCountDesc []

/-- One property assignment of `Object.fromEntries`: a repeated key keeps
its first position but takes the later value. -/
def setProp : NameDict → String → Nat → NameDict
  | [], k, v => [(k, v)]
  | (k', v') :: rest, k, v =>
    if k' = k then (k, v) :: rest else (k', v') :: setProp rest k v

/-- The embedding of `Object.fromEntries(entries)`. -/
def fromEntries (entries : NameDict) : NameDict :=
  entries.foldl (fun d p => setProp d p.1 p.2) []

/-- The embedding of `sortNamesObject(nameDict)`. -/
def sortNamesObject (nameDict : NameDict) : NameDict :=
  fromEntries (sortEntriesByCountDesc nameDict)

/-- One `{ label, value }` chart entry. -/
structure ChartPair where
  label : String
  value : Nat
deriving Repr, DecidableEq

/-- The embedding of `sortAndConvertToChartData(nameDict)`. -/
def sortAndConvertToChartData (nameDict : NameDict) : List ChartPair :=
  (sortEntriesByCountDesc nameDict).map fun p => { label := p.1, value := p.2 }

/-- The `chartData` half of the output DTO. -/
structure ChartData where
  all : List ChartPair
  male : List ChartPair
  female : List ChartPair
  femalePartTime : List ChartPair
  maleFullTime : List ChartPair
deriving Repr, DecidableEq

/-- The output DTO of `createDtoOut`: the `names` half reuses the bucket
shape of `NameCounts`. -/
structure DtoOut where
  names : NameCounts
  chartData : ChartData
deriving Repr, DecidableEq

/-- The embedding of `createDtoOut(nameCounts)`. -/
def createDtoOut (nameCounts : NameCounts) : DtoOut :=
  { names :=
      { all := sortNamesObject nameCounts.all,
        male := sortNamesObject nameCounts.male,
        female := sortNamesObject nameCounts.female,
        femalePartTime := sortNamesObject nameCounts.femalePartTime,
        maleFullTime := sortNamesObject nameCounts.maleFullTime },
    chartData :=
      { all := sortAndConvertToChartData nameCounts.all,
        male := sortAndConvertToChartData nameCounts.male,
        female := sortAndConvertToChartData nameCounts.female,
        femalePartTime := sortAndConvertToChartData nameCounts.femalePartTime,
        maleFullTime := sortAndConvertToChartData nameCounts.maleFullTime } }

/-- The embedding of `analyzeEmployeeNames(employees)`. -/
def analyzeEmployeeNames (employees : List Employee) : DtoOut :=
  createDtoOut (countNamesByCategory employees initializeNameCounts)

/-- The embedding of `getEmployeeChartContent(employees)`. -/
def getEmployeeChartContent (employees : List Employee) : DtoOut :=
  analyzeEmployeeNames employees

/-- The embedding of `main(dtoIn)`: generation composed with aggregation
(`none` when generation ran out of fuel inside the birthdate loop). -/
def main (tz now : Int) (rnd : Nat → ℚ) (fuel : Nat) (dtoIn : DtoIn) :
    Option DtoOut :=
  (generateEmployeeData tz now rnd fuel dtoIn).map getEmployeeChartContent

/-! ### Generator lemmas -/

lemma generateUniqueBirthdate_spec {tz : Int} {rnd : Nat → ℚ} {dr : DateRange} :
    ∀ {fuel i used s used' i'},
      generateUniqueBirthdate tz rnd dr fuel i used = some (s, used', i') →
      s ∉ used ∧ used' = used ++ [s] := by
  intro fuel
  induction fuel with
  | zero => intro i used s used' i' h; simp [generateUniqueBirthdate] at h
  | succ f ih =>
    intro i used s used' i' h
    rw [generateUniqueBirthdate] at h
    split at h
    · exact ih h
    · next hnot =>
      obtain ⟨rfl, rfl, rfl⟩ := by simpa using h
      exact ⟨hnot, rfl⟩

lemma generateEmployees_length {tz : Int} {rnd : Nat → ℚ} {fuel : Nat}
    {names : NameLists} {surnames : List String} {dr : DateRange} :
    ∀ {k i used es},
      generateEmployees tz rnd fuel names surnames dr k i used = some es →
      es.length = k := by
  intro k
  induction k with
  | zero => intro i used es h; simp [generateEmployees] at h; simp [← h]
  | succ n ih =>
    intro i used es h
    rw [generateEmployees] at h
    split at h
    · exact absurd h (by simp)
    · next e used' i' heq =>
      split at h
      · exact absurd h (by simp)
      · next es' hrec =>
        obtain rfl := by simpa using h.symm
        simp [ih hrec]

lemma createEmployee_spec {tz : Int} {rnd : Nat → ℚ} {fuel i : Nat}
    {names : NameLists} {surnames : List String} {dr : DateRange}
    {used : List String} {e : Employee} {used' : List String} {i' : Nat}
    (h : createEmployee tz rnd fuel i names surnames dr used =
      some (e, used', i')) :
    e.birthdate ∉ used ∧ used' = used ++ [e.birthdate] := by
  rw [createEmployee] at h
  split at h
  · exact absurd h (by simp)
  · next b u j hgub =>
    simp only [Option.some.injEq, Prod.mk.injEq] at h
    obtain ⟨he, hu, hj⟩ := h
    obtain ⟨hb, hu'⟩ := generateUniqueBirthdate_spec hgub
    subst hu
    constructor
    · simpa [← he] using hb
    · simpa [← he] using hu'

lemma generateEmployees_birthdates {tz : Int} {rnd : Nat → ℚ} {fuel : Nat}
    {names : NameLists} {surnames : List String} {dr : DateRange} :
    ∀ {k i used es},
      generateEmployees tz rnd fuel names surnames dr k i used = some es →
      (∀ e ∈ es, e.birthdate ∉ used) ∧
        (es.map fun e => e.birthdate).Nodup := by
  intro k
  induction k with
  | zero =>
    intro i used es h
    rw [generateEmployees] at h
    obtain rfl : ([] : List Employee) = es := by simpa using h
    simp
  | succ n ih =>
    intro i used es h
    rw [generateEmployees] at h
    split at h
    · exact absurd h (by simp)
    · next e used' i' heq =>
      split at h
      · exact absurd h (by simp)
      · next es' hrec =>
        obtain rfl : e :: es' = es := by simpa using h
        obtain ⟨hfresh, hused⟩ := createEmployee_spec heq
        obtain ⟨hnot, hnd⟩ := ih hrec
        subst hused
        refine ⟨?_, ?_⟩
        · intro e' he'
          rcases List.mem_cons.mp he' with rfl | hmem
          · exact hfresh
          · intro hc
            exact hnot e' hmem (by simp [hc])
        · refine List.nodup_cons.mpr ⟨?_, hnd⟩
          intro hc
          obtain ⟨e', hmem, hb⟩ := List.mem_map.mp hc
          exact hnot e' hmem (by simp [hb])

/-- The single candidate string a zero-width window can ever produce. -/
def degenerateCandidate (tz : Int) (dr : DateRange) : String :=
  formatDateToISO tz (jsTrunc (dr.minTime : ℚ))

lemma generateUniqueBirthdate_degenerate {tz : Int} {rnd : Nat → ℚ}
    {dr : DateRange} (h : dr.range = 0) :
    ∀ (fuel i : Nat) (used : List String),
      generateUniqueBirthdate tz rnd dr fuel i used =
        if fuel = 0 ∨ degenerateCandidate tz dr ∈ used then none
        else some (degenerateCandidate tz dr,
          used ++ [degenerateCandidate tz dr], i + 1) := by
  intro fuel
  induction fuel with
  | zero => intro i used; simp [generateUniqueBirthdate]
  | succ f ih =>
    intro i used
    have hcand : (dr.minTime : ℚ) + rnd i * (dr.range : ℚ) = (dr.minTime : ℚ) := by
      rw [h]; push_cast; ring
    rw [generateUniqueBirthdate, hcand]
    by_cases hmem : degenerateCandidate tz dr ∈ used
    · rw [if_pos (by simpa [degenerateCandidate] using hmem), ih,
        if_pos (Or.inr hmem), if_pos (Or.inr hmem)]
    · rw [if_neg (by simpa [degenerateCandidate] using hmem),
        if_neg (by simp [hmem])]
      simp [degenerateCandidate]

lemma generateEmployees_unfold (tz : Int) (rnd : Nat → ℚ) (fuel : Nat)
    (n : NameLists) (s : List String) (dr : DateRange) (k i : Nat)
    (used : List String) :
    generateEmployees tz rnd fuel n s dr (k + 1) i used =
      match createEmployee tz rnd fuel i n s dr used with
      | none => none
      | some (e, used', i') =>
        match generateEmployees tz rnd fuel n s dr k i' used' with
        | none => none
        | some es => some (e :: es) := rfl

/-- C3 (code side): with a zero-width age span the loop keeps redrawing the
one possible string, so a three-employee run exhausts any fuel, whatever the
random source does: the unbounded original loop never terminates. -/
theorem degenerate_count3_never_returns (tz now : Int) (rnd : Nat → ℚ)
    (fuel : Nat) :
    generateEmployeeData tz now rnd fuel ⟨3, ⟨0, 0⟩⟩ = none := by
  have hr : (calculateDateRange tz now ⟨3, ⟨0, 0⟩⟩).range = 0 := by
    simp [calculateDateRange]
  show generateEmployees tz rnd fuel getNameLists getSurnameList
    (calculateDateRange tz now ⟨3, ⟨0, 0⟩⟩) 3 0 [] = none
  rw [show (3 : ℕ) = 2 + 1 from rfl, generateEmployees_unfold]
  cases fuel with
  | zero =>
    rw [createEmployee, generateUniqueBirthdate_degenerate hr]
    simp
  | succ f =>
    rw [createEmployee, generateUniqueBirthdate_degenerate hr,
      if_neg (by simp)]
    simp only []
    rw [show (2 : ℕ) = 1 + 1 from rfl, generateEmployees_unfold]
    rw [createEmployee, generateUniqueBirthdate_degenerate hr,
      if_pos (Or.inr (by simp))]

/-- C1: for every valid config, a run of `generateEmployeeData` that
returns (any fuel, any random stream, any timezone, any clock) returns
exactly `count` employees, and `count = 0` returns the empty sequence
outright. -/
theorem generateEmployeeData_returns_count (tz now : Int) (rnd : Nat → ℚ)
    (fuel : Nat) (dtoIn : DtoIn) (_hvalid : dtoIn.age.min ≤ dtoIn.age.max) :
    (∀ es, generateEmployeeData tz now rnd fuel dtoIn = some es →
      es.length = dtoIn.count) ∧
    (dtoIn.count = 0 → generateEmployeeData tz now rnd fuel dtoIn = some []) := by
  constructor
  · intro es h
    exact generateEmployees_length h
  · intro h0
    rw [generateEmployeeData, h0]
    rfl

/-- C1 witness: a concrete one-employee run returns one employee, and a
concrete zero-employee run returns the empty sequence. -/
theorem generateEmployeeData_returns_count_witness :
    ([⟨"male", "1970-01-01T00:00:00.000Z", "Jan", "Novák", 10⟩] :
        List Employee).length = (⟨1, ⟨0, 0⟩⟩ : DtoIn).count ∧
    generateEmployeeData 0 0 (fun _ => 0) 1 ⟨0, ⟨0, 5⟩⟩ = some [] :=
  ⟨(generateEmployeeData_returns_count 0 0 (fun _ => 0) 1 ⟨1, ⟨0, 0⟩⟩
      (by decide)).1 _ (by with_unfolding_all decide),
   (generateEmployeeData_returns_count 0 0 (fun _ => 0) 1 ⟨0, ⟨0, 5⟩⟩
      (by decide)).2 rfl⟩

/-- C2: the birthdate strings of any employee sequence that
`generateEmployeeData` returns are pairwise distinct. -/
theorem generateEmployeeData_birthdates_distinct (tz now : Int)
    (rnd : Nat → ℚ) (fuel : Nat) (dtoIn : DtoIn) (es : List Employee)
    (h : generateEmployeeData tz now rnd fuel dtoIn = some es) :
    (es.map fun e => e.birthdate).Nodup :=
  (generateEmployees_birthdates h).2

/-- C2 witness: a concrete two-employee run whose two sampled instants
differ, with the two birthdate strings distinct. -/
theorem generateEmployeeData_birthdates_distinct_witness :
    (([⟨"male", "1969-03-15T00:00:00.000Z", "Pavel", "Černý", 10⟩,
       ⟨"male", "1969-06-14T06:00:00.000Z", "Jaroslav", "Pokorný", 20⟩] :
      List Employee).map fun e => e.birthdate).Nodup :=
  generateEmployeeData_birthdates_distinct 0 0 (fun i => (i : ℚ) / 20) 5
    ⟨2, ⟨0, 1⟩⟩ _ (by with_unfolding_all decide)

/-! ### Dictionary lemmas -/

/-- Sum of the stored counts of a dictionary. -/
def sumVals (d : NameDict) : Nat := (d.map fun p => p.2).sum

/-- The key list of a dictionary, in property order. -/
def dictKeys (d : NameDict) : List String := d.map fun p => p.1

lemma sumVals_incrName (d : NameDict) (n : String) :
    sumVals (incrName d n) = sumVals d + 1 := by
  induction d with
  | nil => simp [incrName, sumVals]
  | cons p rest ih =>
    obtain ⟨k, v⟩ := p
    rw [incrName]
    split
    · simp [sumVals]; omega
    · simp only [sumVals, List.map_cons, List.sum_cons] at ih ⊢
      omega

lemma getCount_incrName (d : NameDict) (n m : String) :
    getCount (incrName d n) m = getCount d m + if n = m then 1 else 0 := by
  induction d with
  | nil =>
    simp only [incrName, getCount]
    split
    · next h => simp [h]
    · next h => simp [h]
  | cons p rest ih =>
    obtain ⟨k, v⟩ := p
    rw [incrName]
    split
    · next hk =>
      subst hk
      simp only [getCount]
      split
      · next h => simp [h]
      · next h => simp [h]
    · next hk =>
      simp only [getCount]
      split
      · next h =>
        subst h
        have hnk : ¬n = k := fun hnm => hk hnm.symm
        simp [hnk]
      · exact ih

lemma dictKeys_incrName (d : NameDict) (n : String) :
    dictKeys (incrName d n) =
      if n ∈ dictKeys d then dictKeys d else dictKeys d ++ [n] := by
  induction d with
  | nil => simp [incrName, dictKeys]
  | cons p rest ih =>
    obtain ⟨k, v⟩ := p
    rw [incrName]
    split
    · next hk => subst hk; simp [dictKeys]
    · next hk =>
      simp only [dictKeys, List.map_cons] at ih ⊢
      rw [ih]
      by_cases hmem : n ∈ List.map (fun p => (p : String × Nat).1) rest
      · rw [if_pos hmem, if_pos (by simp [hmem])]
      · have hnk : ¬n = k := fun h => hk h.symm
        rw [if_neg hmem, if_neg (by simp [hmem, hnk]), List.cons_append]

lemma nodup_dictKeys_incrName {d : NameDict} (n : String)
    (h : (dictKeys d).Nodup) : (dictKeys (incrName d n)).Nodup := by
  rw [dictKeys_incrName]
  split
  · exact h
  · next hmem => simp [List.nodup_append, h, hmem]

lemma pos_incrName {d : NameDict} (n : String)
    (h : ∀ p ∈ d, 0 < p.2) : ∀ p ∈ incrName d n, 0 < p.2 := by
  induction d with
  | nil => simp [incrName]
  | cons q rest ih =>
    obtain ⟨k, v⟩ := q
    rw [incrName]
    split
    · intro p hp
      rcases List.mem_cons.mp hp with rfl | hmem
      · simp
      · exact h p (List.mem_cons_of_mem _ hmem)
    · intro p hp
      rcases List.mem_cons.mp hp with rfl | hmem
      · exact h (k, v) (List.mem_cons_self _ _)
      · exact ih (fun q hq => h q (List.mem_cons_of_mem _ hq)) p hmem

lemma getCount_pos_mem {d : NameDict} {n : String}
    (h : 0 < getCount d n) : (n, getCount d n) ∈ d := by
  induction d with
  | nil => simp [getCount] at h
  | cons p rest ih =>
    obtain ⟨k, v⟩ := p
    by_cases hk : k = n
    · subst hk
      rw [getCount, if_pos rfl] at h ⊢
      exact List.mem_cons_self _ _
    · rw [getCount, if_neg hk] at h ⊢
      exact List.mem_cons_of_mem _ (ih h)

lemma getCount_of_mem {d : NameDict} {p : String × Nat}
    (hnd : (dictKeys d).Nodup) (hp : p ∈ d) : getCount d p.1 = p.2 := by
  induction d with
  | nil => simp at hp
  | cons q rest ih =>
    obtain ⟨k, v⟩ := q
    simp only [dictKeys, List.map_cons, List.nodup_cons] at hnd
    rcases List.mem_cons.mp hp with rfl | hmem
    · simp [getCount]
    · have hk : k ≠ p.1 := by
        intro h
        exact hnd.1 (h ▸ List.mem_map.mpr ⟨p, hmem, rfl⟩)
      rw [getCount, if_neg hk]
      exact ih hnd.2 hmem

/-! ### Counting-loop lemmas -/

lemma countOne_all (nc : NameCounts) (e : Employee) :
    (countOne nc e).all = incrName nc.all e.name := by
  rw [countOne]
  split <;> split <;> rfl

lemma countOne_male (nc : NameCounts) (e : Employee) :
    (countOne nc e).male =
      if e.gender = "male" then incrName nc.male e.name else nc.male := by
  rw [countOne]
  split <;> split <;> simp_all

lemma countOne_female (nc : NameCounts) (e : Employee) :
    (countOne nc e).female =
      if e.gender = "male" then nc.female else incrName nc.female e.name := by
  rw [countOne]
  split <;> split <;> simp_all

lemma countOne_maleFullTime (nc : NameCounts) (e : Employee) :
    (countOne nc e).maleFullTime =
      if e.gender = "male" ∧ e.workload = 40 then
        incrName nc.maleFullTime e.name
      else nc.maleFullTime := by
  rw [countOne]
  split <;> split <;> simp_all

lemma countOne_femalePartTime (nc : NameCounts) (e : Employee) :
    (countOne nc e).femalePartTime =
      if ¬e.gender = "male" ∧ ¬e.workload = 40 then
        incrName nc.femalePartTime e.name
      else nc.femalePartTime := by
  rw [countOne]
  split <;> split <;> simp_all

/-- Any bucket whose update rule is `incrName` under a per-employee guard is
the plain `incrName` fold over the employees the guard selects. -/
lemma bucket_foldl (proj : NameCounts → NameDict) (P : Employee → Bool)
    (hstep : ∀ nc e, proj (countOne nc e) =
      if P e then incrName (proj nc) e.name else proj nc) :
    ∀ (es : List Employee) (nc : NameCounts),
      proj (countNamesByCategory es nc) =
        (es.filter P).foldl (fun d e => incrName d e.name) (proj nc) := by
  intro es
  induction es with
  | nil => intro nc; rfl
  | cons e es ih =>
    intro nc
    rw [countNamesByCategory, List.foldl_cons,
      show List.foldl countOne (countOne nc e) es =
        countNamesByCategory es (countOne nc e) from rfl, ih, hstep,
      List.filter_cons]
    by_cases hP : P e
    · rw [if_pos hP, if_pos (by simp [hP]), List.foldl_cons]
    · rw [if_neg hP, if_neg (by simp [hP])]

lemma getCount_foldl_incr (l : List Employee) (d : NameDict) (n : String) :
    getCount (l.foldl (fun d e => incrName d e.name) d) n =
      getCount d n + (l.filter fun e => e.name = n).length := by
  induction l generalizing d with
  | nil => simp
  | cons e l ih =>
    rw [List.foldl_cons, ih, getCount_incrName, List.filter_cons]
    by_cases hn : e.name = n
    · rw [if_pos hn, if_pos (by simp [hn])]
      simp; omega
    · rw [if_neg hn, if_neg (by simp [hn])]
      simp

lemma sumVals_foldl_incr (l : List Employee) (d : NameDict) :
    sumVals (l.foldl (fun d e => incrName d e.name) d) =
      sumVals d + l.length := by
  induction l generalizing d with
  | nil => simp
  | cons e l ih =>
    rw [List.foldl_cons, ih, sumVals_incrName, List.length_cons]
    omega

lemma nodup_dictKeys_foldl_incr (l : List Employee) {d : NameDict}
    (h : (dictKeys d).Nodup) :
    (dictKeys (l.foldl (fun d e => incrName d e.name) d)).Nodup := by
  induction l generalizing d with
  | nil => exact h
  | cons e l ih => exact ih (nodup_dictKeys_incrName _ h)

lemma pos_foldl_incr (l : List Employee) {d : NameDict}
    (h : ∀ p ∈ d, 0 < p.2) :
    ∀ p ∈ l.foldl (fun d e => incrName d e.name) d, 0 < p.2 := by
  induction l generalizing d with
  | nil => exact h
  | cons e l ih => exact ih (pos_incrName _ h)

/-- The key order a repeated `d[n] = (d[n] || 0) + 1` loop produces: each
name at the position of its first occurrence. -/
def firstOccurrences (l : List String) : List String :=
  l.foldl (fun acc n => if n ∈ acc then acc else acc ++ [n]) []

lemma dictKeys_foldl_incr (l : List Employee) (d : NameDict) :
    dictKeys (l.foldl (fun d e => incrName d e.name) d) =
      (l.map fun e => e.name).foldl
        (fun acc n => if n ∈ acc then acc else acc ++ [n]) (dictKeys d) := by
  induction l generalizing d with
  | nil => rfl
  | cons e l ih =>
    rw [List.foldl_cons, ih, List.map_cons, List.foldl_cons, dictKeys_incrName]

/-! ### Sorting lemmas -/

lemma insertByCountDesc_perm (x : String × Nat) (l : NameDict) :
    (insertByCountDesc x l).Perm (x :: l) := by
  induction l with
  | nil => exact List.Perm.refl _
  | cons y ys ih =>
    rw [insertByCountDesc]
    split
    · exact List.Perm.refl _
    · exact (ih.cons y).trans (List.Perm.swap x y ys)

lemma sortEntriesByCountDesc_perm (l : NameDict) :
    (sortEntriesByCountDesc l).Perm l := by
  induction l with
  | nil => exact List.Perm.refl _
  | cons x l ih =>
    rw [sortEntriesByCountDesc, List.foldr_cons]
    exact (insertByCountDesc_perm x _).trans
      ((show List.foldr insertByCountDesc [] l = sortEntriesByCountDesc l
        from rfl) ▸ ih.cons x)

lemma pairwise_insertByCountDesc {x : String × Nat} {l : NameDict}
    (h : l.Pairwise fun a b => b.2 ≤ a.2) :
    (insertByCountDesc x l).Pairwise fun a b => b.2 ≤ a.2 := by
  induction l with
  | nil => simp [insertByCountDesc]
  | cons y ys ih =>
    rw [List.pairwise_cons] at h
    rw [insertByCountDesc]
    split
    · next hle =>
      refine List.pairwise_cons.mpr ⟨?_, List.pairwise_cons.mpr h⟩
      intro z hz
      rcases List.mem_cons.mp hz with rfl | hmem
      · exact hle
      · exact le_trans (h.1 z hmem) hle
    · next hlt =>
      refine List.pairwise_cons.mpr ⟨?_, ih h.2⟩
      intro z hz
      rcases List.mem_cons.mp
          ((insertByCountDesc_perm x ys).mem_iff.mp hz) with rfl | hmem
      · omega
      · exact h.1 z hmem

lemma pairwise_sortEntriesByCountDesc (l : NameDict) :
    (sortEntriesByCountDesc l).Pairwise fun a b => b.2 ≤ a.2 := by
  induction l with
  | nil => simp [sortEntriesByCountDesc]
  | cons x l ih =>
    rw [sortEntriesByCountDesc, List.foldr_cons]
    exact pairwise_insertByCountDesc ih

lemma filter_insertByCountDesc (x : String × Nat) (l : NameDict) (c : Nat) :
    ((insertByCountDesc x l).filter fun p => p.2 = c) =
      ((x :: l).filter fun p => p.2 = c) := by
  induction l with
  | nil => rfl
  | cons y ys ih =>
    rw [insertByCountDesc]
    split
    · rfl
    · next hlt =>
      have hxy : x.2 < y.2 := by omega
      by_cases hy : y.2 = c
      · have hx : ¬x.2 = c := by omega
        simp [List.filter_cons, ih, hy, hx]
      · simp [List.filter_cons, ih, hy]

lemma filter_sortEntriesByCountDesc (l : NameDict) (c : Nat) :
    ((sortEntriesByCountDesc l).filter fun p => p.2 = c) =
      (l.filter fun p => p.2 = c) := by
  induction l with
  | nil => rfl
  | cons x l ih =>
    rw [sortEntriesByCountDesc, List.foldr_cons,
      show List.foldr insertByCountDesc [] l = sortEntriesByCountDesc l
        from rfl, filter_insertByCountDesc, List.filter_cons, List.filter_cons, ih]

lemma setProp_of_not_mem (d : NameDict) (k : String) (v : Nat)
    (h : k ∉ dictKeys d) : setProp d k v = d ++ [(k, v)] := by
  induction d with
  | nil => rfl
  | cons q rest ih =>
    obtain ⟨k', v'⟩ := q
    simp only [dictKeys, List.map_cons, List.mem_cons] at h
    push_neg at h
    rw [setProp, if_neg (fun hh => h.1 hh.symm),
      ih (by simpa [dictKeys] using h.2), List.cons_append]

lemma foldl_setProp_of_nodup (l : NameDict) :
    ∀ acc : NameDict, (dictKeys l).Nodup →
      (∀ k ∈ dictKeys l, k ∉ dictKeys acc) →
      l.foldl (fun d p => setProp d p.1 p.2) acc = acc ++ l := by
  induction l with
  | nil => intro acc _ _; simp
  | cons p l ih =>
    intro acc hnd hdisj
    obtain ⟨k, v⟩ := p
    simp only [dictKeys, List.map_cons, List.nodup_cons] at hnd
    rw [List.foldl_cons, setProp_of_not_mem _ _ _
      (hdisj k (by simp [dictKeys]))]
    rw [ih (acc ++ [(k, v)]) hnd.2]
    · simp
    · intro k' hk'
      simp only [dictKeys, List.map_append] at hk' ⊢
      rw [List.mem_append]
      push_neg
      refine ⟨hdisj k' (by simp [dictKeys, hk']), ?_⟩
      simp only [List.map_cons, List.map_nil, List.mem_singleton]
      intro hkk
      exact hnd.1 (hkk ▸ hk')

lemma fromEntries_of_nodup (l : NameDict) (h : (dictKeys l).Nodup) :
    fromEntries l = l := by
  rw [fromEntries, foldl_setProp_of_nodup l [] h (by simp [dictKeys])]
  rfl

lemma nodup_dictKeys_sortEntriesByCountDesc {l : NameDict}
    (h : (dictKeys l).Nodup) :
    (dictKeys (sortEntriesByCountDesc l)).Nodup := by
  show (List.map (fun p => (p : String × Nat).1) (sortEntriesByCountDesc l)).Nodup
  have h' : (List.map (fun p => (p : String × Nat).1) l).Nodup := h
  exact (((sortEntriesByCountDesc_perm l).map fun p => p.1).nodup_iff).mpr h'

lemma sortNamesObject_of_nodup {l : NameDict} (h : (dictKeys l).Nodup) :
    sortNamesObject l = sortEntriesByCountDesc l := by
  rw [sortNamesObject,
    fromEntries_of_nodup _ (nodup_dictKeys_sortEntriesByCountDesc h)]

/-! ### The five buckets as filtered folds -/

lemma all_bucket (es : List Employee) (nc : NameCounts) :
    (countNamesByCategory es nc).all =
      es.foldl (fun d e => incrName d e.name) nc.all := by
  rw [bucket_foldl (fun nc => nc.all) (fun _ => true)
    (by intro nc e; simp [countOne_all]) es nc, List.filter_true]

lemma male_bucket (es : List Employee) (nc : NameCounts) :
    (countNamesByCategory es nc).male =
      (es.filter fun e => e.gender = "male").foldl
        (fun d e => incrName d e.name) nc.male :=
  bucket_foldl (fun nc => nc.male) _
    (by intro nc e; simp [countOne_male]) es nc

lemma female_bucket (es : List Employee) (nc : NameCounts) :
    (countNamesByCategory es nc).female =
      (es.filter fun e => ¬e.gender = "male").foldl
        (fun d e => incrName d e.name) nc.female :=
  bucket_foldl (fun nc => nc.female) _
    (by intro nc e
        by_cases h : e.gender = "male" <;> simp [countOne_female, h]) es nc

lemma maleFullTime_bucket (es : List Employee) (nc : NameCounts) :
    (countNamesByCategory es nc).maleFullTime =
      (es.filter fun e => e.gender = "male" ∧ e.workload = 40).foldl
        (fun d e => incrName d e.name) nc.maleFullTime :=
  bucket_foldl (fun nc => nc.maleFullTime) _
    (by intro nc e; simp [countOne_maleFullTime]) es nc

lemma femalePartTime_bucket (es : List Employee) (nc : NameCounts) :
    (countNamesByCategory es nc).femalePartTime =
      (es.filter fun e => ¬e.gender = "male" ∧ ¬e.workload = 40).foldl
        (fun d e => incrName d e.name) nc.femalePartTime :=
  bucket_foldl (fun nc => nc.femalePartTime) _
    (by intro nc e; simp [countOne_femalePartTime]) es nc

lemma length_filter_not_split (l : List Employee) (p : Employee → Prop)
    [DecidablePred p] :
    (l.filter fun e => p e).length + (l.filter fun e => ¬p e).length =
      l.length := by
  have h := List.length_eq_length_filter_add (l := l) fun e => p e
  rw [h]
  congr 2
  apply List.filter_congr
  intro e _
  simp

/-! ### Bucket count characterisations -/

lemma getCount_all (es : List Employee) (n : String) :
    getCount (countNamesByCategory es initializeNameCounts).all n =
      (es.filter fun e => e.name = n).length := by
  rw [all_bucket, getCount_foldl_incr]
  simp [initializeNameCounts, getCount]

lemma getCount_male (es : List Employee) (n : String) :
    getCount (countNamesByCategory es initializeNameCounts).male n =
      ((es.filter fun e => e.gender = "male").filter
        fun e => e.name = n).length := by
  rw [male_bucket, getCount_foldl_incr]
  simp [initializeNameCounts, getCount]

lemma getCount_female (es : List Employee) (n : String) :
    getCount (countNamesByCategory es initializeNameCounts).female n =
      ((es.filter fun e => ¬e.gender = "male").filter
        fun e => e.name = n).length := by
  rw [female_bucket, getCount_foldl_incr]
  simp [initializeNameCounts, getCount]

lemma getCount_maleFullTime (es : List Employee) (n : String) :
    getCount (countNamesByCategory es initializeNameCounts).maleFullTime n =
      ((es.filter fun e => e.gender = "male" ∧ e.workload = 40).filter
        fun e => e.name = n).length := by
  rw [maleFullTime_bucket, getCount_foldl_incr]
  simp [initializeNameCounts, getCount]

lemma getCount_femalePartTime (es : List Employee) (n : String) :
    getCount (countNamesByCategory es initializeNameCounts).femalePartTime n =
      ((es.filter fun e => ¬e.gender = "male" ∧ ¬e.workload = 40).filter
        fun e => e.name = n).length := by
  rw [femalePartTime_bucket, getCount_foldl_incr]
  simp [initializeNameCounts, getCount]

/-- C4: the bucket invariant of the aggregation loop: the `all` counts sum
to the number of employees, the `male` and `female` counts together sum to
the number of employees, every name of `maleFullTime` appears in `male` with
at least its `maleFullTime` count, and symmetrically for
`femalePartTime` inside `female`. -/
theorem countNames_bucket_invariants (es : List Employee) :
    sumVals (countNamesByCategory es initializeNameCounts).all = es.length ∧
    sumVals (countNamesByCategory es initializeNameCounts).male +
      sumVals (countNamesByCategory es initializeNameCounts).female =
        es.length ∧
    (∀ p ∈ (countNamesByCategory es initializeNameCounts).maleFullTime,
      ∃ q ∈ (countNamesByCategory es initializeNameCounts).male,
        q.1 = p.1 ∧ p.2 ≤ q.2) ∧
    (∀ p ∈ (countNamesByCategory es initializeNameCounts).femalePartTime,
      ∃ q ∈ (countNamesByCategory es initializeNameCounts).female,
        q.1 = p.1 ∧ p.2 ≤ q.2) := by
  refine ⟨?_, ?_, ?_, ?_⟩
  · rw [all_bucket, sumVals_foldl_incr]
    simp [initializeNameCounts, sumVals]
  · rw [male_bucket, female_bucket, sumVals_foldl_incr, sumVals_foldl_incr]
    have h := length_filter_not_split es fun e => e.gender = "male"
    simp only [sumVals, initializeNameCounts, List.map_nil, List.sum_nil,
      Nat.zero_add]
    exact h
  · intro p hp
    have hnd : (dictKeys
        (countNamesByCategory es initializeNameCounts).maleFullTime).Nodup := by
      rw [maleFullTime_bucket]
      exact nodup_dictKeys_foldl_incr _ (by simp [initializeNameCounts, dictKeys])
    have hpos : 0 < p.2 := by
      refine pos_foldl_incr _ ?_ p (by rwa [maleFullTime_bucket] at hp)
      simp [initializeNameCounts]
    have hcnt := getCount_of_mem hnd hp
    have hle : getCount
        (countNamesByCategory es initializeNameCounts).maleFullTime p.1 ≤
        getCount (countNamesByCategory es initializeNameCounts).male p.1 := by
      rw [getCount_maleFullTime, getCount_male, List.filter_filter,
        List.filter_filter]
      refine List.Sublist.length_le (List.monotone_filter_right es ?_)
      intro a ha
      simp only [Bool.and_eq_true, decide_eq_true_eq] at ha ⊢
      exact ⟨ha.1, ha.2.1⟩
    have hposm : 0 < getCount
        (countNamesByCategory es initializeNameCounts).male p.1 := by
      omega
    refine ⟨(p.1, getCount (countNamesByCategory es initializeNameCounts).male
      p.1), getCount_pos_mem hposm, rfl, ?_⟩
    omega
  · intro p hp
    have hnd : (dictKeys
        (countNamesByCategory es initializeNameCounts).femalePartTime).Nodup := by
      rw [femalePartTime_bucket]
      exact nodup_dictKeys_foldl_incr _ (by simp [initializeNameCounts, dictKeys])
    have hpos : 0 < p.2 := by
      refine pos_foldl_incr _ ?_ p (by rwa [femalePartTime_bucket] at hp)
      simp [initializeNameCounts]
    have hcnt := getCount_of_mem hnd hp
    have hle : getCount
        (countNamesByCategory es initializeNameCounts).femalePartTime p.1 ≤
        getCount (countNamesByCategory es initializeNameCounts).female p.1 := by
      rw [getCount_femalePartTime, getCount_female, List.filter_filter,
        List.filter_filter]
      refine List.Sublist.length_le (List.monotone_filter_right es ?_)
      intro a ha
      simp only [Bool.and_eq_true, decide_eq_true_eq] at ha ⊢
      exact ⟨ha.1, ha.2.1⟩
    have hposf : 0 < getCount
        (countNamesByCategory es initializeNameCounts).female p.1 := by
      omega
    refine ⟨(p.1, getCount (countNamesByCategory es initializeNameCounts).female
      p.1), getCount_pos_mem hposf, rfl, ?_⟩
    omega

/-- C10: an employee whose `gender` is anything other than the exact string
`"male"` is counted in the `female` bucket, and also in `femalePartTime`
when its workload is not 40, so no record is ever dropped from the gender
buckets. -/
theorem nonmale_counted_in_female_buckets (es : List Employee) (n : String) :
    getCount (countNamesByCategory es initializeNameCounts).female n =
      (es.filter fun e => ¬e.gender = "male" ∧ e.name = n).length ∧
    getCount (countNamesByCategory es initializeNameCounts).femalePartTime n =
      (es.filter fun e =>
        ¬e.gender = "male" ∧ ¬e.workload = 40 ∧ e.name = n).length := by
  constructor
  · rw [getCount_female, List.filter_filter]
    congr 1
    apply List.filter_congr
    intro e _
    simp only [Bool.and_eq_true, decide_eq_true_eq, Bool.decide_and]
    rcases Decidable.em (e.gender = "male") with h | h <;>
      rcases Decidable.em (e.name = n) with h' | h' <;> simp [h, h']
  · rw [getCount_femalePartTime, List.filter_filter]
    congr 1
    apply List.filter_congr
    intro e _
    rcases Decidable.em (e.gender = "male") with h | h <;>
      rcases Decidable.em (e.workload = 40) with h2 | h2 <;>
      rcases Decidable.em (e.name = n) with h' | h' <;> simp [h, h2, h']

/-! ### Sorted output views -/

lemma nodup_all_bucket (es : List Employee) :
    (dictKeys (countNamesByCategory es initializeNameCounts).all).Nodup := by
  rw [all_bucket]
  exact nodup_dictKeys_foldl_incr _ (by simp [dictKeys, initializeNameCounts])

lemma nodup_male_bucket (es : List Employee) :
    (dictKeys (countNamesByCategory es initializeNameCounts).male).Nodup := by
  rw [male_bucket]
  exact nodup_dictKeys_foldl_incr _ (by simp [dictKeys, initializeNameCounts])

lemma nodup_female_bucket (es : List Employee) :
    (dictKeys (countNamesByCategory es initializeNameCounts).female).Nodup := by
  rw [female_bucket]
  exact nodup_dictKeys_foldl_incr _ (by simp [dictKeys, initializeNameCounts])

lemma nodup_maleFullTime_bucket (es : List Employee) :
    (dictKeys
      (countNamesByCategory es initializeNameCounts).maleFullTime).Nodup := by
  rw [maleFullTime_bucket]
  exact nodup_dictKeys_foldl_incr _ (by simp [dictKeys, initializeNameCounts])

lemma nodup_femalePartTime_bucket (es : List Employee) :
    (dictKeys
      (countNamesByCategory es initializeNameCounts).femalePartTime).Nodup := by
  rw [femalePartTime_bucket]
  exact nodup_dictKeys_foldl_incr _ (by simp [dictKeys, initializeNameCounts])

lemma chain_sortNamesObject {d : NameDict} (h : (dictKeys d).Nodup) :
    List.Chain' (fun a b => b.2 ≤ a.2) (sortNamesObject d) := by
  rw [sortNamesObject_of_nodup h]
  exact (pairwise_sortEntriesByCountDesc d).chain'

lemma chain_sortAndConvertToChartData (d : NameDict) :
    List.Chain' (fun a b : ChartPair => b.value ≤ a.value)
      (sortAndConvertToChartData d) := by
  rw [sortAndConvertToChartData]
  exact (List.pairwise_map.mpr (pairwise_sortEntriesByCountDesc d)).chain'

/-- C5: in both output views of every bucket, entries are sorted by count
descending: each adjacent pair (a, b) satisfies count(a) ≥ count(b). -/
theorem outputs_sorted_by_count_desc (es : List Employee) :
    List.Chain' (fun a b => b.2 ≤ a.2)
      (getEmployeeChartContent es).names.all ∧
    List.Chain' (fun a b => b.2 ≤ a.2)
      (getEmployeeChartContent es).names.male ∧
    List.Chain' (fun a b => b.2 ≤ a.2)
      (getEmployeeChartContent es).names.female ∧
    List.Chain' (fun a b => b.2 ≤ a.2)
      (getEmployeeChartContent es).names.femalePartTime ∧
    List.Chain' (fun a b => b.2 ≤ a.2)
      (getEmployeeChartContent es).names.maleFullTime ∧
    List.Chain' (fun a b : ChartPair => b.value ≤ a.value)
      (getEmployeeChartContent es).chartData.all ∧
    List.Chain' (fun a b : ChartPair => b.value ≤ a.value)
      (getEmployeeChartContent es).chartData.male ∧
    List.Chain' (fun a b : ChartPair => b.value ≤ a.value)
      (getEmployeeChartContent es).chartData.female ∧
    List.Chain' (fun a b : ChartPair => b.value ≤ a.value)
      (getEmployeeChartContent es).chartData.femalePartTime ∧
    List.Chain' (fun a b : ChartPair => b.value ≤ a.value)
      (getEmployeeChartContent es).chartData.maleFullTime :=
  ⟨chain_sortNamesObject (nodup_all_bucket es),
   chain_sortNamesObject (nodup_male_bucket es),
   chain_sortNamesObject (nodup_female_bucket es),
   chain_sortNamesObject (nodup_femalePartTime_bucket es),
   chain_sortNamesObject (nodup_maleFullTime_bucket es),
   chain_sortAndConvertToChartData _,
   chain_sortAndConvertToChartData _,
   chain_sortAndConvertToChartData _,
   chain_sortAndConvertToChartData _,
   chain_sortAndConvertToChartData _⟩

/-- C6: in every bucket the chart view is exactly the entry list of the
names view turned into `{label, value}` pairs, in the same order. -/
theorem chartData_matches_names (es : List Employee) :
    (getEmployeeChartContent es).chartData.all =
      (getEmployeeChartContent es).names.all.map
        (fun p => ChartPair.mk p.1 p.2) ∧
    (getEmployeeChartContent es).chartData.male =
      (getEmployeeChartContent es).names.male.map
        (fun p => ChartPair.mk p.1 p.2) ∧
    (getEmployeeChartContent es).chartData.female =
      (getEmployeeChartContent es).names.female.map
        (fun p => ChartPair.mk p.1 p.2) ∧
    (getEmployeeChartContent es).chartData.femalePartTime =
      (getEmployeeChartContent es).names.femalePartTime.map
        (fun p => ChartPair.mk p.1 p.2) ∧
    (getEmployeeChartContent es).chartData.maleFullTime =
      (getEmployeeChartContent es).names.maleFullTime.map
        (fun p => ChartPair.mk p.1 p.2) := by
  refine ⟨?_, ?_, ?_, ?_, ?_⟩ <;>
    [skip; skip; skip; skip; skip] <;>
    first
    | (show sortAndConvertToChartData _ = (sortNamesObject _).map _
       rw [sortNamesObject_of_nodup (nodup_all_bucket es)]; rfl)
    | (show sortAndConvertToChartData _ = (sortNamesObject _).map _
       rw [sortNamesObject_of_nodup (nodup_male_bucket es)]; rfl)
    | (show sortAndConvertToChartData _ = (sortNamesObject _).map _
       rw [sortNamesObject_of_nodup (nodup_female_bucket es)]; rfl)
    | (show sortAndConvertToChartData _ = (sortNamesObject _).map _
       rw [sortNamesObject_of_nodup (nodup_femalePartTime_bucket es)]; rfl)
    | (show sortAndConvertToChartData _ = (sortNamesObject _).map _
       rw [sortNamesObject_of_nodup (nodup_maleFullTime_bucket es)]; rfl)

/-- C7: aggregation is deterministic in its input: running
`getEmployeeChartContent` twice over the same employee sequence yields
identical statistics DTOs. -/
theorem aggregation_deterministic (es1 es2 : List Employee) (h : es1 = es2) :
    getEmployeeChartContent es1 = getEmployeeChartContent es2 := by
  rw [h]

/-- C7 witness: two runs over one concrete two-employee sequence agree. -/
theorem aggregation_deterministic_witness :
    getEmployeeChartContent
        [⟨"male", "b1", "Jan", "Novák", 40⟩,
         ⟨"female", "b2", "Eva", "Svoboda", 10⟩] =
      getEmployeeChartContent
        [⟨"male", "b1", "Jan", "Novák", 40⟩,
         ⟨"female", "b2", "Eva", "Svoboda", 10⟩] :=
  aggregation_deterministic
    [⟨"male", "b1", "Jan", "Novák", 40⟩, ⟨"female", "b2", "Eva", "Svoboda", 10⟩]
    [⟨"male", "b1", "Jan", "Novák", 40⟩, ⟨"female", "b2", "Eva", "Svoboda", 10⟩]
    rfl

/-! ### Tie-breaking -/

lemma filter_sortNamesObject {d : NameDict} (h : (dictKeys d).Nodup)
    (c : Nat) :
    ((sortNamesObject d).filter fun p => p.2 = c) =
      d.filter fun p => p.2 = c := by
  rw [sortNamesObject_of_nodup h, filter_sortEntriesByCountDesc]

lemma filter_sortAndConvertToChartData (d : NameDict) (c : Nat) :
    ((sortAndConvertToChartData d).filter fun q => q.value = c) =
      (d.filter fun p => p.2 = c).map fun p => ChartPair.mk p.1 p.2 := by
  rw [sortAndConvertToChartData, List.filter_map,
    show ((fun q : ChartPair => decide (q.value = c)) ∘
        fun p : String × Nat => ChartPair.mk p.1 p.2) =
      fun p : String × Nat => decide (p.2 = c) from rfl,
    filter_sortEntriesByCountDesc]

lemma dictKeys_all_bucket (es : List Employee) :
    dictKeys (countNamesByCategory es initializeNameCounts).all =
      firstOccurrences (es.map fun e => e.name) := by
  rw [all_bucket, dictKeys_foldl_incr]
  rfl

lemma dictKeys_male_bucket (es : List Employee) :
    dictKeys (countNamesByCategory es initializeNameCounts).male =
      firstOccurrences ((es.filter fun e => e.gender = "male").map
        fun e => e.name) := by
  rw [male_bucket, dictKeys_foldl_incr]
  rfl

lemma dictKeys_female_bucket (es : List Employee) :
    dictKeys (countNamesByCategory es initializeNameCounts).female =
      firstOccurrences ((es.filter fun e => ¬e.gender = "male").map
        fun e => e.name) := by
  rw [female_bucket, dictKeys_foldl_incr]
  rfl

lemma dictKeys_maleFullTime_bucket (es : List Employee) :
    dictKeys (countNamesByCategory es initializeNameCounts).maleFullTime =
      firstOccurrences ((es.filter
        fun e => e.gender = "male" ∧ e.workload = 40).map fun e => e.name) := by
  rw [maleFullTime_bucket, dictKeys_foldl_incr]
  rfl

lemma dictKeys_femalePartTime_bucket (es : List Employee) :
    dictKeys (countNamesByCategory es initializeNameCounts).femalePartTime =
      firstOccurrences ((es.filter
        fun e => ¬e.gender = "male" ∧ ¬e.workload = 40).map
          fun e => e.name) := by
  rw [femalePartTime_bucket, dictKeys_foldl_incr]
  rfl

/-- C9: the descending sort is stable: in both output views of every
bucket, the entries holding any fixed count `c` appear in exactly the
bucket's accumulation order, and each bucket lists its names in
first-insertion order (the first occurrence of each name among the
employees the bucket counts). -/
theorem ties_keep_first_insertion_order (es : List Employee) (c : Nat) :
    (((getEmployeeChartContent es).names.all.filter fun p => p.2 = c) =
      (countNamesByCategory es initializeNameCounts).all.filter
        fun p => p.2 = c) ∧
    (((getEmployeeChartContent es).names.male.filter fun p => p.2 = c) =
      (countNamesByCategory es initializeNameCounts).male.filter
        fun p => p.2 = c) ∧
    (((getEmployeeChartContent es).names.female.filter fun p => p.2 = c) =
      (countNamesByCategory es initializeNameCounts).female.filter
        fun p => p.2 = c) ∧
    (((getEmployeeChartContent es).names.femalePartTime.filter
        fun p => p.2 = c) =
      (countNamesByCategory es initializeNameCounts).femalePartTime.filter
        fun p => p.2 = c) ∧
    (((getEmployeeChartContent es).names.maleFullTime.filter
        fun p => p.2 = c) =
      (countNamesByCategory es initializeNameCounts).maleFullTime.filter
        fun p => p.2 = c) ∧
    (((getEmployeeChartContent es).chartData.all.filter
        fun q => q.value = c) =
      ((countNamesByCategory es initializeNameCounts).all.filter
        fun p => p.2 = c).map fun p => ChartPair.mk p.1 p.2) ∧
    (((getEmployeeChartContent es).chartData.male.filter
        fun q => q.value = c) =
      ((countNamesByCategory es initializeNameCounts).male.filter
        fun p => p.2 = c).map fun p => ChartPair.mk p.1 p.2) ∧
    (((getEmployeeChartContent es).chartData.female.filter
        fun q => q.value = c) =
      ((countNamesByCategory es initializeNameCounts).female.filter
        fun p => p.2 = c).map fun p => ChartPair.mk p.1 p.2) ∧
    (((getEmployeeChartContent es).chartData.femalePartTime.filter
        fun q => q.value = c) =
      ((countNamesByCategory es initializeNameCounts).femalePartTime.filter
        fun p => p.2 = c).map fun p => ChartPair.mk p.1 p.2) ∧
    (((getEmployeeChartContent es).chartData.maleFullTime.filter
        fun q => q.value = c) =
      ((countNamesByCategory es initializeNameCounts).maleFullTime.filter
        fun p => p.2 = c).map fun p => ChartPair.mk p.1 p.2) ∧
    dictKeys (countNamesByCategory es initializeNameCounts).all =
      firstOccurrences (es.map fun e => e.name) ∧
    dictKeys (countNamesByCategory es initializeNameCounts).male =
      firstOccurrences ((es.filter fun e => e.gender = "male").map
        fun e => e.name) ∧
    dictKeys (countNamesByCategory es initializeNameCounts).female =
      firstOccurrences ((es.filter fun e => ¬e.gender = "male").map
        fun e => e.name) ∧
    dictKeys (countNamesByCategory es initializeNameCounts).femalePartTime =
      firstOccurrences ((es.filter
        fun e => ¬e.gender = "male" ∧ ¬e.workload = 40).map
          fun e => e.name) ∧
    dictKeys (countNamesByCategory es initializeNameCounts).maleFullTime =
      firstOccurrences ((es.filter
        fun e => e.gender = "male" ∧ e.workload = 40).map fun e => e.name) :=
  ⟨filter_sortNamesObject (nodup_all_bucket es) c,
   filter_sortNamesObject (nodup_male_bucket es) c,
   filter_sortNamesObject (nodup_female_bucket es) c,
   filter_sortNamesObject (nodup_femalePartTime_bucket es) c,
   filter_sortNamesObject (nodup_maleFullTime_bucket es) c,
   filter_sortAndConvertToChartData _ c,
   filter_sortAndConvertToChartData _ c,
   filter_sortAndConvertToChartData _ c,
   filter_sortAndConvertToChartData _ c,
   filter_sortAndConvertToChartData _ c,
   dictKeys_all_bucket es,
   dictKeys_male_bucket es,
   dictKeys_female_bucket es,
   dictKeys_femalePartTime_bucket es,
   dictKeys_maleFullTime_bucket es⟩

/-! ### The formatted birthdate and UTC -/

/-- C8 (code side): `formatDateToISO` builds the string from local-time
accessors yet appends the UTC designator "Z".  In a zone one hour east of
UTC (tz = 3600000 ms) the epoch instant 0 renders as 01:00:00.000Z, while
the UTC accessors (tz = 0) render the same instant as 00:00:00.000Z: the
emitted string denotes a different instant than the one sampled. -/
theorem formatDateToISO_not_utc :
    formatDateToISO 3600000 0 = "1970-01-01T01:00:00.000Z" ∧
    formatDateToISO 0 0 = "1970-01-01T00:00:00.000Z" ∧
    formatDateToISO 3600000 0 ≠ formatDateToISO 0 0 := by
  refine ⟨by decide, by decide, by decide⟩

end EmployeeApp
